import Mathlib

set_option maxRecDepth 4096

/-!
Verification development for the pre-authentication IMAP front-end
(`src/imap-login/client.c`).

The C source is shallowly embedded below.  Machine integers of the C code
are modelled as `Int`/`Nat` (none of the verified paths can overflow a
`time_t` or an `unsigned int` counter), file descriptors as `Int`, and the
connection structure (`struct imap_client` together with the `common`
fields of `struct client`) as the Lean structure `ImapClient`.  External
subsystems that live outside this file's source (the istream/ostream
library, the IMAP parser, the SASL driver in `client-authenticate.c`, the
SSL proxy) are modelled as oracle inputs: their return values are explicit
arguments of the embedded functions, exactly where the C code consumes a
return value.  Outputs to the client are collected as lists of lines (one
list element per `client_send_line` call, without the trailing CRLF).
-/

namespace ImapLogin

/-- Constant `CLIENT_LOGIN_IDLE_TIMEOUT` from client.c. -/
def CLIENT_LOGIN_IDLE_TIMEOUT : Int := 60

/-- Constant `CLIENT_MAX_BAD_COMMANDS` from client.c. -/
def CLIENT_MAX_BAD_COMMANDS : Nat := 10

/-- Constant `CLIENT_DESTROY_OLDEST_COUNT` from client.c. -/
def CLIENT_DESTROY_OLDEST_COUNT : Nat := 16

/-- An IP address: either four IPv4 octets or an IPv6 address, the latter
kept abstract as its canonical textual form. -/
inductive IpAddr where
  | v4 (a b c d : Nat)
  | v6 (s : String)
deriving DecidableEq

/-- Discriminator modelling the C macro `IPADDR_IS_V4`. -/
def IpAddr.isV4 : IpAddr → Bool
  | .v4 _ _ _ _ => true
  | .v6 _ => false

/-- Discriminator modelling the C macro `IPADDR_IS_V6`. -/
def IpAddr.isV6 : IpAddr → Bool
  | .v4 _ _ _ _ => false
  | .v6 _ => true

/-- Model of `net_ip2addr`: the textual form of an address, as a character
list.  IPv4 addresses print as dotted decimal. -/
def net_ip2addr : IpAddr → List Char
  | .v4 a b c d =>
      (Nat.repr a).data ++ '.' :: ((Nat.repr b).data ++ '.' ::
        ((Nat.repr c).data ++ '.' :: (Nat.repr d).data))
  | .v6 s => s.data

/-- Specification-side loopback predicate: IPv4 addresses in 127.0.0.0/8
(first octet 127) and the IPv6 address ::1. -/
def isLoopback : IpAddr → Bool
  | .v4 a _ _ _ => a == 127
  | .v6 s => s == "::1"

/-- Well-formedness of an address: IPv4 octets fit in a byte. -/
def ValidIp : IpAddr → Prop
  | .v4 a b c d => a ≤ 255 ∧ b ≤ 255 ∧ c ≤ 255 ∧ d ≤ 255
  | .v6 _ => True

/-- Process-wide configuration consumed by client.c.  The base capability
token list (`CAPABILITY_STRING`) and the mechanism list returned by
`client_authenticate_get_capabilities` for a given `secured` value live in
headers and in client-authenticate.c, outside this file's source; they are
kept abstract here. -/
structure Config where
  ssl_initialized : Bool
  disable_plaintext_auth : Bool
  greeting : String
  greeting_capability : Bool
  max_logging_users : Nat
  capability_string : String
  mechs : Bool → String

/-- Model of `t_str_ucase` (ASCII uppercasing), written by structural
recursion over the character list so that it evaluates. -/
def t_str_ucase (s : String) : String := ⟨s.data.map Char.toUpper⟩

/-- The connection structure: `struct imap_client` plus the `common`
fields it uses.  Boolean fields model the C flags; `log` records the
`client_syslog` lines (destroy reasons); `wire` records lines that the
output stream accepted (used by the refined send model); `freed` records
that the final `i_free` ran.  Defaults model the `i_new` zero fill. -/
structure ImapClient where
  id : Nat := 0
  ip : IpAddr := .v4 0 0 0 0
  local_ip : IpAddr := .v4 0 0 0 0
  fd : Int := -1
  tls : Bool := false
  secured : Bool := false
  proxy : Bool := false
  auth_request : Bool := false
  master_tag : Int := 0
  created : Int := 0
  last_input : Int := 0
  refcount : Int := 0
  destroyed : Bool := false
  freed : Bool := false
  input_closed : Bool := false
  output_closed : Bool := false
  io : Bool := false
  flush_cb : Bool := false
  cmd_tag : Option String := none
  cmd_name : Option String := none
  cmd_finished : Bool := false
  skip_line : Bool := false
  bad_counter : Nat := 0
  input_blocked : Bool := false
  authenticating : Bool := false
  log : List String := []
  wire : List String := []
deriving DecidableEq

/-- The tag used by `client_send_tagline` (the stored `cmd_tag`). -/
def tagOf (c : ImapClient) : String := c.cmd_tag.getD ""

/-- Model of `client_unref`: drop one reference; free the client when the
count reaches zero. -/
def client_unref (c : ImapClient) : ImapClient :=
  if 0 < c.refcount - 1 then { c with refcount := c.refcount - 1 }
  else { c with refcount := c.refcount - 1, freed := true }

/-- Per-connection effects of `client_destroy` (client.c line 434): a
no-op on an already destroyed client; otherwise log the reason, close both
streams, abort any auth and master requests, remove the io watch,
disconnect the fd, release the proxy and drop the creator reference.
Registry removal is modelled at the world level. -/
def client_destroy_mark (c : ImapClient) (reason : Option String) : ImapClient :=
  if c.destroyed then c
  else
    client_unref { c with
      destroyed := true,
      log := c.log ++ reason.toList,
      input_closed := true,
      output_closed := true,
      auth_request := false,
      master_tag := 0,
      io := false,
      fd := -1,
      proxy := false }

/-- Model of `get_capability` (client.c line 93). -/
def get_capability (cfg : Config) (c : ImapClient) : String :=
  cfg.capability_string
    ++ (if cfg.ssl_initialized && !c.tls then " STARTTLS" else "")
    ++ (if cfg.disable_plaintext_auth && !c.secured then " LOGINDISABLED" else "")
    ++ cfg.mechs c.secured

/-- Capability string written from the specification text, for claim C2:
base set, then STARTTLS iff TLS is available and not active, then
LOGINDISABLED iff plaintext auth is disabled and the connection is not
secured, then the mechanism list for the current secured value. -/
def capabilitySpec (base : String) (tls secured sslAvail plainDisabled : Bool)
    (mechs : Bool → String) : String :=
  base
    ++ (if sslAvail = true ∧ tls = false then " STARTTLS" else "")
    ++ (if plainDisabled = true ∧ secured = false then " LOGINDISABLED" else "")
    ++ mechs secured

/-- Result of one command handler: updated client, lines sent, C return
value (TRUE = 1, FALSE = 0, unknown command = -1). -/
structure CmdRes where
  c : ImapClient
  out : List String
  ret : Int
deriving DecidableEq

/-- Model of `cmd_capability` (client.c line 105). -/
def cmd_capability (cfg : Config) (c : ImapClient) : CmdRes :=
  ⟨c, ["* CAPABILITY " ++ get_capability cfg c,
       tagOf c ++ " OK Capability completed."], 1⟩

/-- Model of `cmd_noop` (client.c line 185). -/
def cmd_noop (c : ImapClient) : CmdRes :=
  ⟨c, [tagOf c ++ " OK NOOP completed."], 1⟩

/-- Model of `cmd_logout` (client.c line 191). -/
def cmd_logout (c : ImapClient) : CmdRes :=
  ⟨client_destroy_mark c (some "Aborted login"),
   ["* BYE Logging out", tagOf c ++ " OK Logout completed."], 1⟩

/-- Model of `client_start_tls` (client.c line 113).  `fdSsl` is the
oracle for the `ssl_proxy_new` return value; -1 means failure. -/
def client_start_tls (c : ImapClient) (fdSsl : Int) : ImapClient × List String :=
  if fdSsl = -1 then
    (client_destroy_mark c (some "TLS initialization failed."),
     ["* BYE TLS initialization failed."])
  else
    ({ c with tls := true, secured := true, fd := fdSsl,
              skip_line := false, io := true }, [])

/-- Model of `cmd_starttls` (client.c line 155).  `bufUsed` is the oracle
for `o_stream_get_buffer_used_size` after the OK line was queued; `fdSsl`
is the `ssl_proxy_new` oracle used on the immediate-upgrade path.  The io
watch is removed before the OK line is sent; `tagOf` only reads the
stored tag, so the tagline is written against the unchanged tag. -/
def cmd_starttls (cfg : Config) (c : ImapClient) (bufUsed : Nat) (fdSsl : Int) : CmdRes :=
  if c.tls then ⟨c, [tagOf c ++ " BAD TLS is already active."], 1⟩
  else if !cfg.ssl_initialized then
    ⟨c, [tagOf c ++ " BAD TLS support isn't enabled."], 1⟩
  else if bufUsed ≠ 0 then
    ⟨{ c with io := false, flush_cb := true },
     [tagOf c ++ " OK Begin TLS negotiation now."], 1⟩
  else
    ⟨(client_start_tls { c with io := false } fdSsl).1,
     (tagOf c ++ " OK Begin TLS negotiation now.") ::
       (client_start_tls { c with io := false } fdSsl).2, 1⟩

/-- Outcome of the SASL entry points.

Modelled from the spec: `cmd_login` and `cmd_authenticate` live in
`client-authenticate.c`, which is not part of this tree.  Per the
specification (sections 4.2 and 4.4) they emit reply lines, may move the
connection into the authenticating state, and do not touch the
bad-command counter; their observable outcome is an oracle input. -/
structure AuthOutcome where
  lines : List String := []
  ret : Int := 1
  setsAuth : Bool := false
deriving DecidableEq

/-- Apply a SASL entry-point outcome (see `AuthOutcome`). -/
def applyAuthOutcome (c : ImapClient) (o : AuthOutcome) : CmdRes :=
  ⟨{ c with authenticating := o.setsAuth || c.authenticating }, o.lines, o.ret⟩

/-- Result of `imap_parser_read_args`. -/
inductive ArgsResult where
  | ok
  | recoverable (msg : String)
  | fatal (msg : String)
  | needMore
deriving DecidableEq

/-- Parser and subsystem oracle data consumed while handling one input
turn: what `client_skip_line` and the two `imap_parser_read_word` calls
yield, the `imap_parser_read_args` outcome, the SASL entry-point outcomes
and the STARTTLS oracles. -/
structure LineInput where
  skipFound : Bool := true
  tagWord : Option String := none
  nameWord : Option String := none
  args : ArgsResult := .ok
  loginResult : AuthOutcome := {}
  authResult : AuthOutcome := {}
  starttlsBufUsed : Nat := 0
  sslProxyFd : Int := -1
deriving DecidableEq

/-- Model of `client_command_execute` (client.c line 199): uppercase the
stored command name and dispatch. -/
def client_command_execute (cfg : Config) (c : ImapClient) (inp : LineInput) : CmdRes :=
  if t_str_ucase (c.cmd_name.getD "") = "LOGIN" then applyAuthOutcome c inp.loginResult
  else if t_str_ucase (c.cmd_name.getD "") = "AUTHENTICATE" then applyAuthOutcome c inp.authResult
  else if t_str_ucase (c.cmd_name.getD "") = "CAPABILITY" then cmd_capability cfg c
  else if t_str_ucase (c.cmd_name.getD "") = "STARTTLS" then
    cmd_starttls cfg c inp.starttlsBufUsed inp.sslProxyFd
  else if t_str_ucase (c.cmd_name.getD "") = "NOOP" then cmd_noop c
  else if t_str_ucase (c.cmd_name.getD "") = "LOGOUT" then cmd_logout c
  else ⟨c, [], -1⟩

/-- Result of `client_handle_input`: updated client, lines sent, and the
C return value (`cont` = TRUE means the input pump may run again). -/
structure HRes where
  c : ImapClient
  out : List String
  cont : Bool
deriving DecidableEq

/-- The bad-command tail of `client_handle_input` (client.c lines
285-297), applied after `bad_counter` was incremented: reaching
`CLIENT_MAX_BAD_COMMANDS` sends the BYE and destroys, otherwise the
tagged BAD error is sent and the connection continues. -/
def badCmdPath (out : List String) (c9 : ImapClient) : HRes :=
  if CLIENT_MAX_BAD_COMMANDS ≤ c9.bad_counter then
    ⟨client_destroy_mark c9 (some "Disconnected: Too many invalid commands"),
     out ++ ["* BYE Too many invalid IMAP commands."], false⟩
  else
    ⟨c9, out ++ [tagOf c9 ++ " BAD Error in IMAP command received by server."], true⟩

/-- Tail of `client_handle_input` after command execution (client.c lines
284-299): set `cmd_finished`; on a negative return, substitute `*` for an
empty tag, increment `bad_counter` and take the bad-command path. -/
def dispatchTail (r : CmdRes) : HRes :=
  if r.ret < 0 then
    badCmdPath r.out
      (if tagOf r.c = "" then
        { r.c with cmd_finished := true, cmd_tag := some "*",
                   bad_counter := r.c.bad_counter + 1 }
       else { r.c with cmd_finished := true, bad_counter := r.c.bad_counter + 1 })
  else
    ⟨{ r.c with cmd_finished := true }, r.out, r.ret != 0⟩

/-- Stage of `client_handle_input` from line 279 on: an empty tag counts
as an unknown command, otherwise the command is dispatched. -/
def dispatchStage (cfg : Config) (c5 : ImapClient) (inp : LineInput) : HRes :=
  dispatchTail
    (if tagOf c5 = "" then ⟨c5, [], -1⟩ else client_command_execute cfg c5 inp)

/-- Argument-reading stage of `client_handle_input` (client.c line 257). -/
def readArgsStage (cfg : Config) (c4 : ImapClient) (inp : LineInput) : HRes :=
  match inp.args with
  | .fatal msg =>
      ⟨client_destroy_mark c4 (some ("Disconnected: " ++ msg)),
       ["* BYE " ++ msg], false⟩
  | .recoverable msg =>
      ⟨{ c4 with cmd_finished := true, skip_line := true },
       [tagOf c4 ++ " BAD " ++ msg], true⟩
  | .needMore => ⟨c4, [], false⟩
  | .ok => dispatchStage cfg { c4 with skip_line := true } inp

/-- Command-name reading stage of `client_handle_input` (client.c line
251): read a word when no name is stored yet; absence of a word means
more data is needed. -/
def readNameStage (cfg : Config) (c3 : ImapClient) (inp : LineInput) : HRes :=
  match c3.cmd_name with
  | some _ => readArgsStage cfg c3 inp
  | none =>
      match inp.nameWord with
      | none => ⟨c3, [], false⟩
      | some n => readArgsStage cfg { c3 with cmd_name := some n } inp

/-- Tag reading stage of `client_handle_input` (client.c line 245). -/
def readTagStage (cfg : Config) (c2 : ImapClient) (inp : LineInput) : HRes :=
  match c2.cmd_tag with
  | some _ => readNameStage cfg c2 inp
  | none =>
      match inp.tagWord with
      | none => ⟨c2, [], false⟩
      | some t => readNameStage cfg { c2 with cmd_tag := some t } inp

/-- Model of `client_handle_input` (client.c line 219).  The C function
asserts that the connection is not authenticating; that branch is
modelled as a no-op and excluded by the `Ready` precondition in the
theorems.  When the previous command is finished, the stored tag and name
are cleared and a pending line skip is consumed (returning for more data
when no newline is available yet). -/
def client_handle_input (cfg : Config) (c0 : ImapClient) (inp : LineInput) : HRes :=
  if c0.authenticating then ⟨c0, [], false⟩
  else if c0.cmd_finished ∧ c0.skip_line ∧ inp.skipFound = false then
    ⟨{ c0 with cmd_tag := none, cmd_name := none }, [], false⟩
  else
    readTagStage cfg
      (if c0.cmd_finished then
        { c0 with cmd_tag := none, cmd_name := none,
                  skip_line := false, cmd_finished := false }
       else c0) inp

/-- A session run: feed one `LineInput` per turn to `client_handle_input`;
a destroyed connection receives no further input. -/
def run_session (cfg : Config) (c : ImapClient) : List LineInput → ImapClient × List String
  | [] => (c, [])
  | inp :: rest =>
      if c.destroyed then (c, [])
      else
        let r := client_handle_input cfg c inp
        let rec' := run_session cfg r.c rest
        (rec'.1, r.out ++ rec'.2)

/-- Model of `client_check_idle` (client.c line 525). -/
def client_check_idle (now : Int) (c : ImapClient) : ImapClient × List String :=
  if CLIENT_LOGIN_IDLE_TIMEOUT ≤ now - c.last_input then
    (client_destroy_mark c (some "Disconnected: Inactivity"),
     ["* BYE Disconnected for inactivity."])
  else (c, [])

/-- Model of `idle_timeout` (client.c line 533): the once-per-second timer
callback applies `client_check_idle` to every registered connection. -/
def idle_timeout (now : Int) (reg : List ImapClient) : List (ImapClient × List String) :=
  reg.map (client_check_idle now)

/-- Model of `client_send_line` (client.c line 504).  `sendvRet` is the
oracle for `o_stream_sendv`; a full send is `line.length + 2` bytes
(line plus CRLF). -/
def client_send_line (c : ImapClient) (line : String) (sendvRet : Int) : ImapClient :=
  if sendvRet < 0 then client_destroy_mark c (some "Disconnected")
  else if sendvRet ≠ (line.length : Int) + 2 then
    client_destroy_mark c (some "Transmit buffer full")
  else { c with wire := c.wire ++ [line] }

/-- Model of `client_read` (client.c line 302).  `readRet` is the oracle
for `i_stream_read`; `byeSendRet` is the `o_stream_sendv` oracle used when
the buffer-full BYE line is sent. -/
def client_read (c : ImapClient) (readRet : Int) (byeSendRet : Int) : ImapClient × Bool :=
  if readRet = -2 then
    (client_destroy_mark
       (client_send_line c "* BYE Input buffer full, aborting" byeSendRet)
       (some "Disconnected: Input buffer full"), false)
  else if readRet = -1 then
    (client_destroy_mark c (some "Disconnected"), false)
  else (c, true)

/-- Insertion step of the `destroy_buf` scan in `client_destroy_oldest`
(client.c lines 360-369): a client is placed before the first buffer entry
with a strictly larger creation time. -/
def insertOldest (c : ImapClient) : List ImapClient → List ImapClient
  | [] => [c]
  | b :: bs =>
      if c.created < b.created then c :: b :: bs
      else b :: insertOldest c bs

/-- One iteration of the `client_destroy_oldest` scan: insert the visited
client, keep at most `CLIENT_DESTROY_OLDEST_COUNT` entries. -/
def bufStep (buf : List ImapClient) (c : ImapClient) : List ImapClient :=
  (insertOldest c buf).take CLIENT_DESTROY_OLDEST_COUNT

/-- The full `destroy_buf` computed by `client_destroy_oldest` over the
registry. -/
def buildBuf (reg : List ImapClient) : List ImapClient :=
  reg.foldl bufStep []

/-- World state for registry-level operations: the registered connections
and the connections that have been destroyed (left the registry). -/
structure CreateWorld where
  reg : List ImapClient
  gone : List ImapClient
deriving DecidableEq

/-- Model of `client_destroy_oldest` (client.c line 346): destroy every
`destroy_buf` entry with reason `Disconnected: Connection queue full`;
each `client_destroy` removes its client from the registry. -/
def client_destroy_oldest (w : CreateWorld) : CreateWorld :=
  let buf := buildBuf w.reg
  { reg := w.reg.diff buf,
    gone := w.gone ++ buf.map fun b =>
      client_destroy_mark b (some "Disconnected: Connection queue full") }

/-- The connection built by `client_create` (client.c line 384): creator
reference, TLS flag from the accept mode, secured flag from TLS or a
loopback peer (the C tests `strncmp(addr, "127.", 4)` on IPv4 and
`strcmp(addr, "::1")` on IPv6), both timestamps set to the current
event-loop time, and a read io watch. -/
def client_create (now : Int) (idn : Nat) (fd : Int) (ssl : Bool)
    (local_ip ip : IpAddr) : ImapClient :=
  { id := idn, created := now, refcount := 1, tls := ssl,
    secured := ssl
      || (ip.isV4 && List.isPrefixOf ['1', '2', '7', '.'] (net_ip2addr ip))
      || (ip.isV6 && (net_ip2addr ip == [':', ':', '1'])),
    local_ip := local_ip, ip := ip, fd := fd, io := true,
    last_input := now }

/-- The greeting line written by `client_create`. -/
def greeting_line (cfg : Config) (c : ImapClient) : String :=
  "* OK "
    ++ (if cfg.greeting_capability then "[CAPABILITY " ++ get_capability cfg c ++ "] " else "")
    ++ cfg.greeting

/-- Registry-level `client_create` (client.c line 384): evict the oldest
connections when the user limit is reached and the limit exceeds
`CLIENT_DESTROY_OLDEST_COUNT`, then build and register the new connection
and send the greeting. -/
def client_create_world (cfg : Config) (now : Int) (idn : Nat) (fd : Int) (ssl : Bool)
    (local_ip ip : IpAddr) (w : CreateWorld) : CreateWorld × ImapClient × List String :=
  (⟨client_create now idn fd ssl local_ip ip ::
      (if CLIENT_DESTROY_OLDEST_COUNT < cfg.max_logging_users ∧
          cfg.max_logging_users ≤ w.reg.length then
        client_destroy_oldest w
       else w).reg,
    (if CLIENT_DESTROY_OLDEST_COUNT < cfg.max_logging_users ∧
        cfg.max_logging_users ≤ w.reg.length then
      client_destroy_oldest w
     else w).gone⟩,
   client_create now idn fd ssl local_ip ip,
   [greeting_line cfg (client_create now idn fd ssl local_ip ip)])

/-- World state for `client_destroy`: one client plus the ids currently
registered. -/
structure World where
  client : ImapClient
  reg : List Nat
deriving DecidableEq

/-- Model of `client_destroy` (client.c line 434) at world level: a no-op
when already destroyed, otherwise remove the client from the registry and
apply the per-client effects. -/
def client_destroy (w : World) (reason : Option String) : World :=
  if w.client.destroyed then w
  else { client := client_destroy_mark w.client reason,
         reg := w.reg.erase w.client.id }

/-- Command names `client_command_execute` recognises. -/
def knownCommand (n : String) : Bool :=
  let u := t_str_ucase n
  u = "LOGIN" || u = "AUTHENTICATE" || u = "CAPABILITY" ||
    u = "STARTTLS" || u = "NOOP" || u = "LOGOUT"

/-- A connection state ready to accept the next command line: live, not
authenticating, and not stopped in the middle of reading a command. -/
def Ready (c : ImapClient) : Prop :=
  c.destroyed = false ∧ c.authenticating = false ∧
    (c.cmd_finished = true ∨ (c.cmd_tag = none ∧ c.cmd_name = none))

/-- A complete tagged line whose command is unknown (the bad-command path
of client.c lines 279-297). -/
def isBadInp (inp : LineInput) : Bool :=
  inp.skipFound &&
    (match inp.tagWord with | some t => !(t == "") | none => false) &&
    (match inp.args with | .ok => true | _ => false) &&
    (match inp.nameWord with | some n => !knownCommand n | none => false)

/-- A complete tagged line carrying a session-preserving valid command
(CAPABILITY, NOOP, or STARTTLS with a pending output flush). -/
def isGoodInp (inp : LineInput) : Bool :=
  inp.skipFound &&
    (match inp.tagWord with | some t => !(t == "") | none => false) &&
    (match inp.args with | .ok => true | _ => false) &&
    (match inp.nameWord with
     | some n =>
        t_str_ucase n == "CAPABILITY" || t_str_ucase n == "NOOP" ||
          (t_str_ucase n == "STARTTLS" && inp.starttlsBufUsed != 0)
     | none => false)

/-- A complete line input carrying tag `t` and command name `n`. -/
def mkLine (t n : String) : LineInput :=
  { tagWord := some t, nameWord := some n }

/-- The claim C3 invariant: TLS-active implies secured, and a loopback
peer implies secured. -/
def ClientInv (c : ImapClient) : Prop :=
  (c.tls = true → c.secured = true) ∧ (isLoopback c.ip = true → c.secured = true)

/-- Client state after an unknown tagged command `t n` was processed up to
the `bad_counter` increment (before the threshold test). -/
def afterBad (c : ImapClient) (t n : String) : ImapClient :=
  { c with cmd_tag := some t, cmd_name := some n, skip_line := true,
           cmd_finished := true, bad_counter := c.bad_counter + 1 }

end ImapLogin

namespace ImapLogin

/-- Shared sample configuration for witnesses. -/
def sampleCfg : Config :=
  { ssl_initialized := true, disable_plaintext_auth := true,
    greeting := "ready", greeting_capability := true,
    max_logging_users := 17, capability_string := "IMAP4rev1",
    mechs := fun s => if s then " AUTH=PLAIN" else "" }

/-- Shared sample freshly created connection for witnesses. -/
def sampleClient : ImapClient := { id := 1, refcount := 1 }

/-- C2: the advertised capability string is a pure function of
`(tls, secured, ssl_initialized, disable_plaintext_auth, declared
mechanisms)`: it equals the base capability set, followed by STARTTLS
iff TLS is available and not active, followed by LOGINDISABLED iff
plaintext auth is disabled and the connection is not secured, followed by
the mechanism list for the current secured value. -/
theorem capability_pure_function :
    ∀ (cfg : Config) (c : ImapClient),
      get_capability cfg c =
        capabilitySpec cfg.capability_string c.tls c.secured
          cfg.ssl_initialized cfg.disable_plaintext_auth cfg.mechs ∧
      ∀ c2 : ImapClient, c.tls = c2.tls → c.secured = c2.secured →
        get_capability cfg c = get_capability cfg c2 := by
  intro cfg c
  constructor
  · unfold get_capability capabilitySpec
    cases c.tls <;> cases c.secured <;>
      cases cfg.ssl_initialized <;> cases cfg.disable_plaintext_auth <;> simp
  · intro c2 h1 h2
    unfold get_capability
    rw [h1, h2]

/-- Witness for C2 at a concrete connection. -/
theorem capability_pure_function_witness :
    get_capability sampleCfg sampleClient =
      capabilitySpec sampleCfg.capability_string sampleClient.tls
        sampleClient.secured sampleCfg.ssl_initialized
        sampleCfg.disable_plaintext_auth sampleCfg.mechs ∧
    get_capability sampleCfg sampleClient =
      get_capability sampleCfg { sampleClient with id := 2 } :=
  ⟨(capability_pure_function sampleCfg sampleClient).1,
   (capability_pure_function sampleCfg sampleClient).2 _ rfl rfl⟩

/-- C6: STARTTLS replies BAD and keeps the connection when TLS is already
active or TLS support is not enabled; otherwise it removes the read io
watch, sends the OK line, and either defers the upgrade to a flush
callback (nonempty output buffer) or upgrades immediately. -/
theorem starttls_command_behavior :
    ∀ (cfg : Config) (c : ImapClient) (bufUsed : Nat) (fdSsl : Int),
      (c.tls = true →
        cmd_starttls cfg c bufUsed fdSsl =
          ⟨c, [tagOf c ++ " BAD TLS is already active."], 1⟩) ∧
      (c.tls = false → cfg.ssl_initialized = false →
        cmd_starttls cfg c bufUsed fdSsl =
          ⟨c, [tagOf c ++ " BAD TLS support isn't enabled."], 1⟩) ∧
      (c.tls = false → cfg.ssl_initialized = true → bufUsed ≠ 0 →
        cmd_starttls cfg c bufUsed fdSsl =
          ⟨{ c with io := false, flush_cb := true },
           [tagOf c ++ " OK Begin TLS negotiation now."], 1⟩) ∧
      (c.tls = false → cfg.ssl_initialized = true → bufUsed = 0 → fdSsl ≠ -1 →
        cmd_starttls cfg c bufUsed fdSsl =
          ⟨{ c with io := true, tls := true, secured := true,
                    fd := fdSsl, skip_line := false },
           [tagOf c ++ " OK Begin TLS negotiation now."], 1⟩) := by
  intro cfg c bufUsed fdSsl
  refine ⟨fun h1 => ?_, fun h1 h2 => ?_, fun h1 h2 h3 => ?_, fun h1 h2 h3 h4 => ?_⟩
  · simp [cmd_starttls, h1]
  · simp [cmd_starttls, h1, h2]
  · simp [cmd_starttls, h1, h2, h3, tagOf]
  · simp [cmd_starttls, client_start_tls, h1, h2, h3, h4, tagOf]

/-- Witness for C6 at concrete connections. -/
theorem starttls_command_behavior_witness :
    cmd_starttls sampleCfg { sampleClient with tls := true } 0 (-1) =
      ⟨{ sampleClient with tls := true }, [" BAD TLS is already active."], 1⟩ ∧
    cmd_starttls sampleCfg sampleClient 5 (-1) =
      ⟨{ sampleClient with io := false, flush_cb := true },
       [" OK Begin TLS negotiation now."], 1⟩ ∧
    cmd_starttls sampleCfg sampleClient 0 8 =
      ⟨{ sampleClient with io := true, tls := true, secured := true, fd := 8, skip_line := false },
       [" OK Begin TLS negotiation now."], 1⟩ :=
  ⟨by
    have h := (starttls_command_behavior sampleCfg { sampleClient with tls := true } 0 (-1)).1 rfl
    simpa [tagOf, sampleClient] using h,
   by
    have h := (starttls_command_behavior sampleCfg sampleClient 5 (-1)).2.2.1 rfl rfl (by decide)
    simpa [tagOf, sampleClient] using h,
   by
    have h := (starttls_command_behavior sampleCfg sampleClient 0 8).2.2.2 rfl rfl rfl (by decide)
    simpa [tagOf, sampleClient] using h⟩

/-- C7: on each idle-timer tick, every registered connection idle for at
least 60 seconds is sent the inactivity BYE and destroyed with reason
`Disconnected: Inactivity`, and every other connection is untouched. -/
theorem idle_sweep_behavior :
    ∀ (now : Int) (reg : List ImapClient) (c : ImapClient), c ∈ reg →
      c.destroyed = false →
      client_check_idle now c ∈ idle_timeout now reg ∧
      (CLIENT_LOGIN_IDLE_TIMEOUT ≤ now - c.last_input →
        (client_check_idle now c).2 = ["* BYE Disconnected for inactivity."] ∧
        (client_check_idle now c).1.destroyed = true ∧
        (client_check_idle now c).1.log = c.log ++ ["Disconnected: Inactivity"]) ∧
      (now - c.last_input < CLIENT_LOGIN_IDLE_TIMEOUT →
        client_check_idle now c = (c, [])) := by
  intro now reg c hmem hdes
  refine ⟨List.mem_map_of_mem _ hmem, fun hidle => ?_, fun hfresh => ?_⟩
  · refine ⟨?_, ?_, ?_⟩ <;>
      simp only [client_check_idle, if_pos hidle] <;>
      simp [client_destroy_mark, client_unref, hdes] <;>
      try (split <;> simp)
  · simp only [client_check_idle, if_neg (not_le.mpr hfresh)]

/-- Witness for C7 at concrete connections and times. -/
theorem idle_sweep_behavior_witness :
    client_check_idle 60 sampleClient ∈ idle_timeout 60 [sampleClient] ∧
    (client_check_idle 60 sampleClient).2 = ["* BYE Disconnected for inactivity."] ∧
    (client_check_idle 60 sampleClient).1.destroyed = true ∧
    client_check_idle 59 sampleClient = (sampleClient, []) := by
  have h := idle_sweep_behavior 60 [sampleClient] sampleClient (by simp) rfl
  have h2 := idle_sweep_behavior 59 [sampleClient] sampleClient (by simp) rfl
  exact ⟨h.1, (h.2.1 (by decide)).1, (h.2.1 (by decide)).2.1, h2.2.2 (by decide)⟩

end ImapLogin

namespace ImapLogin

/-- C8 counterexample: a short send (here `o_stream_sendv` accepts 1 of 3
bytes) destroys the connection with reason `Transmit buffer full` but no
`* BYE` diagnostic line is ever handed to the output stream, contradicting
the claim that both flow-control errors destroy with a diagnostic BYE. -/
theorem flow_control_bye_counterexample :
    (client_send_line sampleClient "x" 1).destroyed = true ∧
    (client_send_line sampleClient "x" 1).log = ["Transmit buffer full"] ∧
    (client_send_line sampleClient "x" 1).wire = [] := by decide

/-- C8 amended: a read hitting a full input buffer sends `* BYE Input
buffer full, aborting` and destroys with reason `Disconnected: Input
buffer full`; a failed send destroys with reason `Disconnected` and a
short send destroys with reason `Transmit buffer full`, in both cases
without any BYE diagnostic reaching the client. -/
theorem flow_control_errors :
    ∀ (c : ImapClient) (readRet byeRet sendvRet : Int) (line : String),
      c.destroyed = false →
      (readRet = -2 → byeRet = ("* BYE Input buffer full, aborting".length : Int) + 2 →
        (client_read c readRet byeRet).1.destroyed = true ∧
        (client_read c readRet byeRet).1.wire =
          c.wire ++ ["* BYE Input buffer full, aborting"] ∧
        (client_read c readRet byeRet).1.log =
          c.log ++ ["Disconnected: Input buffer full"] ∧
        (client_read c readRet byeRet).2 = false) ∧
      (readRet = -1 →
        (client_read c readRet byeRet).1.destroyed = true ∧
        (client_read c readRet byeRet).1.log = c.log ++ ["Disconnected"] ∧
        (client_read c readRet byeRet).1.wire = c.wire ∧
        (client_read c readRet byeRet).2 = false) ∧
      (readRet ≠ -2 → readRet ≠ -1 → client_read c readRet byeRet = (c, true)) ∧
      (sendvRet < 0 →
        (client_send_line c line sendvRet).destroyed = true ∧
        (client_send_line c line sendvRet).log = c.log ++ ["Disconnected"] ∧
        (client_send_line c line sendvRet).wire = c.wire) ∧
      (0 ≤ sendvRet → sendvRet ≠ (line.length : Int) + 2 →
        (client_send_line c line sendvRet).destroyed = true ∧
        (client_send_line c line sendvRet).log = c.log ++ ["Transmit buffer full"] ∧
        (client_send_line c line sendvRet).wire = c.wire) := by
  intro c readRet byeRet sendvRet line hdes
  refine ⟨fun h1 h2 => ?_, fun h1 => ?_, fun h1 h2 => ?_, fun h1 => ?_, fun h1 h2 => ?_⟩
  · have hnn : ¬ byeRet < 0 := by
      rw [h2]; omega
    refine ⟨?_, ?_, ?_, ?_⟩ <;>
      simp only [client_read, client_send_line, h1, if_pos rfl, if_neg hnn,
        if_neg (by rw [h2]; simp : ¬ byeRet ≠ ("* BYE Input buffer full, aborting".length : Int) + 2)] <;>
      simp [client_destroy_mark, client_unref, hdes] <;>
      try (split <;> simp)
  · refine ⟨?_, ?_, ?_, ?_⟩ <;>
      simp only [client_read, h1] <;>
      norm_num <;>
      simp [client_destroy_mark, client_unref, hdes] <;>
      try (split <;> simp)
  · simp [client_read, h1, h2]
  · refine ⟨?_, ?_, ?_⟩ <;>
      simp only [client_send_line, if_pos h1] <;>
      simp [client_destroy_mark, client_unref, hdes] <;>
      try (split <;> simp)
  · refine ⟨?_, ?_, ?_⟩ <;>
      simp only [client_send_line, if_neg (not_lt.mpr h1), if_pos h2] <;>
      simp [client_destroy_mark, client_unref, hdes] <;>
      try (split <;> simp)

/-- Witness for C8 at concrete oracle values. -/
theorem flow_control_errors_witness :
    (client_read sampleClient (-2) 35).1.destroyed = true ∧
    (client_read sampleClient (-2) 35).1.wire = ["* BYE Input buffer full, aborting"] ∧
    (client_read sampleClient (-1) 0).1.log = ["Disconnected"] ∧
    client_read sampleClient 7 0 = (sampleClient, true) ∧
    (client_send_line sampleClient "x" (-1)).log = ["Disconnected"] ∧
    (client_send_line sampleClient "x" 1).log = ["Transmit buffer full"] := by
  have h := flow_control_errors sampleClient (-2) 35 0 "x" rfl
  have h2 := flow_control_errors sampleClient (-1) 0 (-1) "x" rfl
  have h3 := flow_control_errors sampleClient 7 0 1 "x" rfl
  refine ⟨?_, ?_, ?_, ?_, ?_, ?_⟩
  · exact (h.1 rfl (by decide)).1
  · simpa [sampleClient] using (h.1 rfl (by decide)).2.1
  · simpa [sampleClient] using (h2.2.1 rfl).2.1
  · exact h3.2.2.1 (by decide) (by decide)
  · simpa [sampleClient] using (h2.2.2.2.1 (by decide)).2.1
  · simpa [sampleClient] using (h3.2.2.2.2 (by decide) (by decide)).2.1

/-- C9: `client_destroy` is idempotent (a second call changes nothing at
all); the first call marks the client destroyed, removes it from the
registry, closes its resources and drops one reference, and the memory is
freed exactly when the reference count reaches zero. -/
theorem destroy_idempotent :
    ∀ (w : World) (r r2 : Option String),
      client_destroy (client_destroy w r) r2 = client_destroy w r ∧
      (w.client.destroyed = true → client_destroy w r = w) ∧
      (w.client.destroyed = false → w.client.freed = false →
        (client_destroy w r).client.destroyed = true ∧
        (client_destroy w r).reg = w.reg.erase w.client.id ∧
        (client_destroy w r).client.refcount = w.client.refcount - 1 ∧
        ((client_destroy w r).client.freed = true ↔ w.client.refcount ≤ 1) ∧
        (client_destroy w r).client.io = false ∧
        (client_destroy w r).client.fd = -1 ∧
        (client_destroy w r).client.input_closed = true ∧
        (client_destroy w r).client.output_closed = true ∧
        (client_destroy w r).client.log = w.client.log ++ r.toList) := by
  intro w r r2
  by_cases hdes : w.client.destroyed
  · refine ⟨?_, fun _ => ?_, fun hfalse _ => ?_⟩
    · simp [client_destroy, hdes]
    · simp [client_destroy, hdes]
    · rw [hfalse] at hdes; exact absurd hdes (by simp)
  · have hmark : (client_destroy_mark w.client r).destroyed = true := by
      simp only [client_destroy_mark, if_neg hdes, client_unref]
      split <;> simp
    refine ⟨?_, fun h => absurd h hdes, fun _ hfreed => ?_⟩
    · simp [client_destroy, hdes, hmark]
    · refine ⟨?_, ?_, ?_, ?_, ?_, ?_, ?_, ?_, ?_⟩ <;>
        simp only [client_destroy, if_neg hdes] <;>
        simp [client_destroy_mark, client_unref, hdes] <;>
        try (split <;> simp_all)

/-- Witness for C9 at a concrete world. -/
theorem destroy_idempotent_witness :
    client_destroy (client_destroy ⟨{ id := 7, refcount := 2 }, [7, 9]⟩ (some "Disconnected"))
        none =
      client_destroy ⟨{ id := 7, refcount := 2 }, [7, 9]⟩ (some "Disconnected") ∧
    (client_destroy ⟨{ id := 7, refcount := 2 }, [7, 9]⟩ (some "Disconnected")).reg = [9] ∧
    (client_destroy ⟨{ id := 7, refcount := 2 }, [7, 9]⟩ (some "Disconnected")).client.freed
        = false := by
  have h := destroy_idempotent ⟨{ id := 7, refcount := 2 }, [7, 9]⟩ (some "Disconnected") none
  refine ⟨h.1, ?_, ?_⟩
  · have hreg := (h.2.2 rfl rfl).2.1
    simpa using hreg
  · have hiff := (h.2.2 rfl rfl).2.2.2.1
    by_contra hcon
    exact absurd (hiff.mp (by simpa using hcon)) (by decide)

end ImapLogin

namespace ImapLogin

/-- Decimal representations of bytes: at most three digits, and the digit
string 127 characterises the value 127. -/
theorem repr_facts : ∀ a : Nat, a < 256 →
    ((Nat.repr a).data.length ≤ 3 ∧ ((Nat.repr a).data = ['1', '2', '7'] ↔ a = 127)) := by
  decide

/-- The four-character comparison performed by `strncmp(addr, "127.", 4)`
on a dotted string whose first component has at most three characters
succeeds exactly when that component is the digit string 127. -/
theorem prefix127 (xs : List Char) (h : xs.length ≤ 3) (rest : List Char) :
    List.isPrefixOf ['1', '2', '7', '.'] (xs ++ '.' :: rest) = true ↔ xs = ['1', '2', '7'] := by
  match xs with
  | [] => simp [List.isPrefixOf]
  | [x] => simp [List.isPrefixOf]
  | [x, y] => simp [List.isPrefixOf]
  | [x, y, z] =>
      simp only [List.cons_append, List.nil_append, List.isPrefixOf, Bool.and_eq_true, beq_iff_eq]
      constructor
      · rintro ⟨h1, h2, h3, -⟩
        simp [← h1, ← h2, ← h3]
      · rintro hx
        injection hx with e1 hx
        injection hx with e2 hx
        injection hx with e3 hx
        subst e1; subst e2; subst e3
        simp [List.isPrefixOf]
  | x1 :: x2 :: x3 :: x4 :: t => simp at h

/-- The loopback test of `client_create` (string comparisons on the
`net_ip2addr` form) agrees with the address-level loopback predicate on
well-formed addresses. -/
theorem loopback_code_eq (ip : IpAddr) (h : ValidIp ip) :
    ((ip.isV4 && List.isPrefixOf ['1', '2', '7', '.'] (net_ip2addr ip))
      || (ip.isV6 && (net_ip2addr ip == [':', ':', '1']))) = isLoopback ip := by
  cases ip with
  | v4 a b c d =>
      have ha : a < 256 := by
        have := h.1
        omega
      have hf := repr_facts a ha
      simp only [IpAddr.isV4, IpAddr.isV6, net_ip2addr, isLoopback,
        Bool.true_and, Bool.false_and, Bool.or_false]
      by_cases h127 : a = 127
      · subst h127
        have hpre := (prefix127 (Nat.repr 127).data (by decide)
          ((Nat.repr b).data ++ '.' :: ((Nat.repr c).data ++ '.' :: (Nat.repr d).data))).mpr
          (by decide)
        simp [hpre]
      · have hpre : List.isPrefixOf ['1', '2', '7', '.']
            ((Nat.repr a).data ++ '.' :: ((Nat.repr b).data ++ '.' ::
              ((Nat.repr c).data ++ '.' :: (Nat.repr d).data))) ≠ true := by
          intro hc
          exact h127 (hf.2.mp ((prefix127 _ hf.1 _).mp hc))
        simp only [Bool.not_eq_true] at hpre
        simp [hpre, h127]
  | v6 s =>
      simp only [IpAddr.isV4, IpAddr.isV6, net_ip2addr, isLoopback,
        Bool.true_and, Bool.false_and, Bool.false_or]
      by_cases hs : s = "::1"
      · subst hs
        simp
      · have hd : s.data ≠ "::1".data := fun hc => hs (String.ext hc)
        simp [hs, hd]

/-- Fields `client_destroy_mark` never touches. -/
theorem mark_preserves (c : ImapClient) (r : Option String) :
    (client_destroy_mark c r).tls = c.tls ∧
    (client_destroy_mark c r).secured = c.secured ∧
    (client_destroy_mark c r).ip = c.ip ∧
    (client_destroy_mark c r).bad_counter = c.bad_counter := by
  unfold client_destroy_mark client_unref
  split
  · simp
  · split <;> simp

/-- Transfer of the C3 invariant along equal tls, secured and ip fields. -/
theorem ClientInv_mk (c c2 : ImapClient) (h : ClientInv c) (ht : c2.tls = c.tls)
    (hs : c2.secured = c.secured) (hip : c2.ip = c.ip) : ClientInv c2 := by
  unfold ClientInv at *
  rw [ht, hs, hip]
  exact h

/-- Destroying a connection preserves the C3 invariant. -/
theorem mark_inv (c : ImapClient) (r : Option String) (h : ClientInv c) :
    ClientInv (client_destroy_mark c r) :=
  ClientInv_mk c _ h (mark_preserves c r).1 (mark_preserves c r).2.1
    (mark_preserves c r).2.2.1

/-- The STARTTLS upgrade preserves the C3 invariant (it sets `tls` and
`secured` together on success; on failure it only destroys). -/
theorem start_tls_inv (c : ImapClient) (fdSsl : Int) (h : ClientInv c) :
    ClientInv (client_start_tls c fdSsl).1 := by
  unfold client_start_tls
  split
  · exact mark_inv _ _ h
  · exact ⟨fun _ => rfl, fun _ => rfl⟩

/-- The STARTTLS command handler preserves the C3 invariant. -/
theorem cmd_starttls_inv (cfg : Config) (c : ImapClient) (bufUsed : Nat) (fdSsl : Int)
    (h : ClientInv c) : ClientInv (cmd_starttls cfg c bufUsed fdSsl).c := by
  unfold cmd_starttls
  split
  · exact h
  · split
    · exact h
    · split
      · exact h
      · exact start_tls_inv { c with io := false } fdSsl h

/-- Command dispatch preserves the C3 invariant. -/
theorem execute_inv (cfg : Config) (c : ImapClient) (inp : LineInput) (h : ClientInv c) :
    ClientInv (client_command_execute cfg c inp).c := by
  unfold client_command_execute applyAuthOutcome cmd_capability cmd_noop cmd_logout
  split
  · exact h
  · split
    · exact h
    · split
      · exact h
      · split
        · exact cmd_starttls_inv cfg c _ _ h
        · split
          · exact h
          · split
            · exact mark_inv _ _ h
            · exact h

/-- The bad-command tail preserves the C3 invariant. -/
theorem badCmdPath_inv (out : List String) (c9 : ImapClient) (h : ClientInv c9) :
    ClientInv (badCmdPath out c9).c := by
  unfold badCmdPath
  split
  · exact mark_inv _ _ h
  · exact h

/-- The post-parse stage of `client_handle_input` preserves the C3
invariant. -/
theorem dispatchStage_inv (cfg : Config) (c5 : ImapClient) (inp : LineInput)
    (h : ClientInv c5) : ClientInv (dispatchStage cfg c5 inp).c := by
  unfold dispatchStage dispatchTail
  by_cases htag : tagOf c5 = ""
  · simp only [htag, if_pos]
    split
    · exact badCmdPath_inv _ _ h
    · exact h
  · simp only [if_neg htag]
    have hr := execute_inv cfg c5 inp h
    split
    · split <;> exact badCmdPath_inv _ _ hr
    · exact hr

/-- A full `client_handle_input` turn preserves the C3 invariant. -/
theorem handle_input_inv (cfg : Config) (c : ImapClient) (inp : LineInput)
    (h : ClientInv c) : ClientInv (client_handle_input cfg c inp).c := by
  have hargs : ∀ c4 : ImapClient, ClientInv c4 → ClientInv (readArgsStage cfg c4 inp).c := by
    intro c4 h4
    unfold readArgsStage
    split
    · exact mark_inv _ _ h4
    · exact h4
    · exact h4
    · exact dispatchStage_inv cfg _ inp h4
  have hname : ∀ c3 : ImapClient, ClientInv c3 → ClientInv (readNameStage cfg c3 inp).c := by
    intro c3 h3
    unfold readNameStage
    split
    · exact hargs _ h3
    · split
      · exact h3
      · exact hargs _ h3
  have htagS : ∀ c2 : ImapClient, ClientInv c2 → ClientInv (readTagStage cfg c2 inp).c := by
    intro c2 h2
    unfold readTagStage
    split
    · exact hname _ h2
    · split
      · exact h2
      · exact hname _ h2
  unfold client_handle_input
  split
  · exact h
  · split
    · exact h
    · exact htagS _ (by split <;> exact h)

/-- C3: for every connection, TLS-active implies secured and a loopback
peer implies secured: at creation `secured` is exactly TLS-at-accept or
loopback peer, the STARTTLS upgrade sets `tls` and `secured` together, and
every input-handling operation preserves the invariant. -/
theorem tls_implies_secured :
    (∀ (now : Int) (idn : Nat) (fd : Int) (ssl : Bool) (lip ip : IpAddr),
      ValidIp ip →
        (client_create now idn fd ssl lip ip).secured = (ssl || isLoopback ip) ∧
        ClientInv (client_create now idn fd ssl lip ip)) ∧
    (∀ (c : ImapClient) (fdSsl : Int), ClientInv c →
      ClientInv (client_start_tls c fdSsl).1 ∧
      (fdSsl ≠ -1 → (client_start_tls c fdSsl).1.tls = true ∧
        (client_start_tls c fdSsl).1.secured = true)) ∧
    (∀ (cfg : Config) (c : ImapClient) (inp : LineInput), ClientInv c →
      ClientInv (client_handle_input cfg c inp).c) := by
  refine ⟨fun now idn fd ssl lip ip hv => ?_, fun c fdSsl h => ?_, fun cfg c inp h => ?_⟩
  · have hsec : (client_create now idn fd ssl lip ip).secured = (ssl || isLoopback ip) := by
      show (ssl || (ip.isV4 && List.isPrefixOf ['1', '2', '7', '.'] (net_ip2addr ip))
        || (ip.isV6 && (net_ip2addr ip == [':', ':', '1']))) = (ssl || isLoopback ip)
      rw [Bool.or_assoc, loopback_code_eq ip hv]
    refine ⟨hsec, ?_, ?_⟩
    · intro htls
      have : ssl = true := htls
      rw [hsec, this]
      rfl
    · intro hlb
      have hlb2 : isLoopback ip = true := hlb
      show ((client_create now idn fd ssl lip ip).secured = true)
      rw [hsec, hlb2]
      simp
  · refine ⟨start_tls_inv c fdSsl h, fun hne => ?_⟩
    unfold client_start_tls
    rw [if_neg hne]
    exact ⟨rfl, rfl⟩
  · exact handle_input_inv cfg c inp h

/-- Witness for C3: a loopback IPv4 peer without TLS is secured, a
non-loopback peer without TLS is not, and concrete operations keep the
invariant. -/
theorem tls_implies_secured_witness :
    (client_create 5 1 4 false (.v4 10 0 0 1) (.v4 127 0 0 1)).secured = true ∧
    (client_create 5 1 4 false (.v4 10 0 0 1) (.v4 128 0 0 1)).secured = false ∧
    ClientInv (client_start_tls (client_create 5 1 4 false (.v4 10 0 0 1) (.v4 127 0 0 1)) 6).1 := by
  have h1 := (tls_implies_secured.1 5 1 4 false (.v4 10 0 0 1) (.v4 127 0 0 1)
    (by simp [ValidIp])).1
  have h2 := (tls_implies_secured.1 5 1 4 false (.v4 10 0 0 1) (.v4 128 0 0 1)
    (by simp [ValidIp])).1
  have h3 := (tls_implies_secured.2.1 (client_create 5 1 4 false (.v4 10 0 0 1) (.v4 127 0 0 1)) 6
    (tls_implies_secured.1 5 1 4 false (.v4 10 0 0 1) (.v4 127 0 0 1) (by simp [ValidIp])).2).1
  refine ⟨?_, ?_, h3⟩
  · rw [h1]; decide
  · rw [h2]; decide

end ImapLogin

namespace ImapLogin

/-- Destroying a live client sets its destroyed flag. -/
theorem mark_destroyed (c : ImapClient) (r : Option String) (h : c.destroyed = false) :
    (client_destroy_mark c r).destroyed = true := by
  unfold client_destroy_mark client_unref
  rw [if_neg (by simp [h])]
  split <;> simp

/-- A destroyed connection receives no further input. -/
theorem run_session_destroyed (cfg : Config) (c : ImapClient) (l : List LineInput)
    (h : c.destroyed = true) : run_session cfg c l = (c, []) := by
  cases l <;> simp [run_session, h]

/-- Unfolding of `run_session` on a live connection. -/
theorem run_session_cons_live (cfg : Config) (c : ImapClient) (inp : LineInput)
    (rest : List LineInput) (h : c.destroyed = false) :
    run_session cfg c (inp :: rest) =
      ((run_session cfg (client_handle_input cfg c inp).c rest).1,
       (client_handle_input cfg c inp).out ++
         (run_session cfg (client_handle_input cfg c inp).c rest).2) := by
  simp [run_session, h]

/-- One `client_handle_input` turn on a ready connection fed a complete
tagged line with an unknown command: the counter is incremented and the
threshold decides between the tagged BAD error and the BYE disconnect. -/
theorem handle_bad (cfg : Config) (c : ImapClient) (inp : LineInput) (t n : String)
    (hR : Ready c) (hs : inp.skipFound = true) (htw : inp.tagWord = some t) (ht : t ≠ "")
    (hnw : inp.nameWord = some n) (hn : knownCommand n = false) (ha : inp.args = .ok) :
    client_handle_input cfg c inp =
      if CLIENT_MAX_BAD_COMMANDS ≤ c.bad_counter + 1 then
        ⟨client_destroy_mark (afterBad c t n) (some "Disconnected: Too many invalid commands"),
         ["* BYE Too many invalid IMAP commands."], false⟩
      else
        ⟨afterBad c t n, [t ++ " BAD Error in IMAP command received by server."], true⟩ := by
  obtain ⟨hdes, hauth, hready⟩ := hR
  simp only [knownCommand, t_str_ucase, Bool.or_eq_false_iff, decide_eq_false_iff_not] at hn
  obtain ⟨⟨⟨⟨⟨h1, h2⟩, h3⟩, h4⟩, h5⟩, h6⟩ := hn
  by_cases hten : CLIENT_MAX_BAD_COMMANDS ≤ c.bad_counter + 1 <;>
    by_cases hcf : c.cmd_finished = true
  · simp [client_handle_input, readTagStage, readNameStage, readArgsStage, dispatchStage,
      dispatchTail, client_command_execute, badCmdPath, afterBad, tagOf, t_str_ucase,
      hs, htw, hnw, ha, hcf, ht, hauth, hten, h1, h2, h3, h4, h5, h6]
  · obtain ⟨htag0, hname0⟩ := hready.resolve_left hcf
    simp [client_handle_input, readTagStage, readNameStage, readArgsStage, dispatchStage,
      dispatchTail, client_command_execute, badCmdPath, afterBad, tagOf, t_str_ucase,
      hs, htw, hnw, ha, (Bool.not_eq_true _).mp hcf, htag0, hname0, ht, hauth, hten,
      h1, h2, h3, h4, h5, h6]
  · simp [client_handle_input, readTagStage, readNameStage, readArgsStage, dispatchStage,
      dispatchTail, client_command_execute, badCmdPath, afterBad, tagOf, t_str_ucase,
      hs, htw, hnw, ha, hcf, ht, hauth, hten, h1, h2, h3, h4, h5, h6]
  · obtain ⟨htag0, hname0⟩ := hready.resolve_left hcf
    simp [client_handle_input, readTagStage, readNameStage, readArgsStage, dispatchStage,
      dispatchTail, client_command_execute, badCmdPath, afterBad, tagOf, t_str_ucase,
      hs, htw, hnw, ha, (Bool.not_eq_true _).mp hcf, htag0, hname0, ht, hauth, hten,
      h1, h2, h3, h4, h5, h6]

end ImapLogin

namespace ImapLogin

/-- No command handler modifies the bad-command counter. -/
theorem execute_counter (cfg : Config) (c : ImapClient) (inp : LineInput) :
    (client_command_execute cfg c inp).c.bad_counter = c.bad_counter := by
  unfold client_command_execute applyAuthOutcome cmd_capability cmd_noop cmd_logout
    cmd_starttls client_start_tls
  repeat' split
  all_goals first
    | rfl
    | exact (mark_preserves _ _).2.2.2

/-- The bad-command tail does not change the (already incremented)
counter further. -/
theorem badCmdPath_counter (out : List String) (c9 : ImapClient) :
    (badCmdPath out c9).c.bad_counter = c9.bad_counter := by
  unfold badCmdPath
  split
  · exact (mark_preserves _ _).2.2.2
  · rfl

/-- The dispatch tail never decreases the counter. -/
theorem dispatchTail_counter (r : CmdRes) :
    r.c.bad_counter ≤ (dispatchTail r).c.bad_counter := by
  unfold dispatchTail
  split
  · rw [badCmdPath_counter]
    split <;> simp
  · simp

/-- The dispatch stage never decreases the counter. -/
theorem dispatchStage_counter (cfg : Config) (c5 : ImapClient) (inp : LineInput) :
    c5.bad_counter ≤ (dispatchStage cfg c5 inp).c.bad_counter := by
  unfold dispatchStage
  refine le_trans (le_of_eq ?_) (dispatchTail_counter _)
  split
  · rfl
  · exact (execute_counter cfg c5 inp).symm

/-- The argument stage never decreases the counter. -/
theorem readArgs_counter (cfg : Config) (c4 : ImapClient) (inp : LineInput) :
    c4.bad_counter ≤ (readArgsStage cfg c4 inp).c.bad_counter := by
  unfold readArgsStage
  split
  · rw [(mark_preserves _ _).2.2.2]
  · simp
  · simp
  · exact dispatchStage_counter cfg { c4 with skip_line := true } inp

/-- C10 monotonicity core: a full input-handling turn never decreases the
bad-command counter. -/
theorem handle_counter (cfg : Config) (c : ImapClient) (inp : LineInput) :
    c.bad_counter ≤ (client_handle_input cfg c inp).c.bad_counter := by
  have hname : ∀ c3 : ImapClient, c3.bad_counter ≤ (readNameStage cfg c3 inp).c.bad_counter := by
    intro c3
    unfold readNameStage
    split
    · exact readArgs_counter cfg _ inp
    · split
      · simp
      · rename_i n heq
        exact readArgs_counter cfg { c3 with cmd_name := some n } inp
  have htagS : ∀ c2 : ImapClient, c2.bad_counter ≤ (readTagStage cfg c2 inp).c.bad_counter := by
    intro c2
    unfold readTagStage
    split
    · exact hname _
    · split
      · simp
      · rename_i t heq
        exact hname { c2 with cmd_tag := some t }
  unfold client_handle_input
  split
  · simp
  · split
    · simp
    · exact le_trans (by split <;> simp) (htagS _)

/-- One `client_handle_input` turn on a ready connection fed a complete
tagged line carrying a session-preserving valid command: the counter is
unchanged, the connection survives and stays ready. -/
theorem handle_good (cfg : Config) (c : ImapClient) (inp : LineInput)
    (hR : Ready c) (hg : isGoodInp inp = true) :
    (client_handle_input cfg c inp).c.bad_counter = c.bad_counter ∧
    (client_handle_input cfg c inp).c.destroyed = false ∧
    Ready (client_handle_input cfg c inp).c := by
  obtain ⟨hdes, hauth, hready⟩ := hR
  unfold isGoodInp at hg
  rcases htw : inp.tagWord with _ | t <;> rw [htw] at hg
  · simp at hg
  rcases hnw : inp.nameWord with _ | n <;> rw [hnw] at hg
  · simp at hg
  rcases hargs : inp.args <;> rw [hargs] at hg <;>
    simp only [Bool.and_eq_true, Bool.or_eq_true, beq_iff_eq, bne_iff_ne,
      Bool.not_eq_true', Bool.false_eq_true, false_and, and_false] at hg
  case intro.intro.some.some.ok =>
    obtain ⟨⟨⟨hs, ht⟩, -⟩, hname⟩ := hg
    have htne : t ≠ "" := by simpa using ht
    have hcmd : ∀ c5 : ImapClient, c5.cmd_name = some n →
        (client_command_execute cfg c5 inp).c.bad_counter = c5.bad_counter ∧
        (client_command_execute cfg c5 inp).c.destroyed = c5.destroyed ∧
        (client_command_execute cfg c5 inp).c.authenticating = c5.authenticating ∧
        0 ≤ (client_command_execute cfg c5 inp).ret := by
      intro c5 hn5
      rcases hname with (hu | hu) | ⟨hu, hbuf⟩ <;> simp only [t_str_ucase] at hu
      · simp [client_command_execute, cmd_capability, t_str_ucase, hn5, hu]
      · simp [client_command_execute, cmd_noop, t_str_ucase, hn5, hu]
      · cases hc5t : c5.tls <;> cases hcssl : cfg.ssl_initialized <;>
          simp [client_command_execute, cmd_starttls, t_str_ucase, hn5, hu, hbuf, hc5t, hcssl]
    have hstep : ∀ c5 : ImapClient, c5.cmd_name = some n → tagOf c5 ≠ "" →
        c5.destroyed = false → c5.authenticating = false →
        (dispatchStage cfg c5 inp).c.bad_counter = c5.bad_counter ∧
        (dispatchStage cfg c5 inp).c.destroyed = false ∧
        Ready (dispatchStage cfg c5 inp).c := by
      intro c5 hn5 ht5 hd5 ha5
      obtain ⟨hc1, hc2, hc3, hc4⟩ := hcmd c5 hn5
      unfold dispatchStage dispatchTail
      rw [if_neg ht5]
      split
      · next hlt => omega
      · refine ⟨by simpa using hc1, by simpa [hd5] using hc2, ?_⟩
        exact ⟨by simpa [hd5] using hc2, by simpa [ha5] using hc3, Or.inl rfl⟩
    by_cases hcf : c.cmd_finished = true
    · have := hstep { c with cmd_tag := some t, cmd_name := some n, skip_line := true, cmd_finished := false } rfl (by simpa [tagOf] using htne) hdes hauth
      simpa [client_handle_input, readTagStage, readNameStage, readArgsStage,
        hs, htw, hnw, hargs, hcf, hauth] using this
    · obtain ⟨htag0, hname0⟩ := hready.resolve_left hcf
      have := hstep { c with cmd_tag := some t, cmd_name := some n, skip_line := true } rfl (by simpa [tagOf] using htne) hdes hauth
      simpa [client_handle_input, readTagStage, readNameStage, readArgsStage,
        hs, htw, hnw, hargs, (Bool.not_eq_true _).mp hcf, htag0, hname0, hauth] using this

end ImapLogin

namespace ImapLogin

/-- Running a batch of unknown tagged commands that stays strictly below
the bad-command limit: every line is answered with the tagged BAD error
and the connection survives. -/
theorem run_bads_alive (cfg : Config) :
    ∀ (pairs : List (String × String)) (c : ImapClient),
    Ready c → (∀ p ∈ pairs, p.1 ≠ "" ∧ knownCommand p.2 = false) →
    c.bad_counter + pairs.length < CLIENT_MAX_BAD_COMMANDS →
    (run_session cfg c (pairs.map fun p => mkLine p.1 p.2)).1.destroyed = false ∧
    Ready (run_session cfg c (pairs.map fun p => mkLine p.1 p.2)).1 ∧
    (run_session cfg c (pairs.map fun p => mkLine p.1 p.2)).1.bad_counter
        = c.bad_counter + pairs.length ∧
    (run_session cfg c (pairs.map fun p => mkLine p.1 p.2)).2
        = pairs.map (fun p => p.1 ++ " BAD Error in IMAP command received by server.") := by
  intro pairs
  induction pairs with
  | nil =>
      intro c hR _ _
      exact ⟨hR.1, hR, by simp [run_session], by simp [run_session]⟩
  | cons p rest ih =>
      intro c hR hall hlt
      obtain ⟨hp1, hp2⟩ := hall p (List.mem_cons_self ..)
      have hb := handle_bad cfg c (mkLine p.1 p.2) p.1 p.2 hR rfl rfl hp1 rfl hp2 rfl
      rw [if_neg (by simp only [List.length_cons, CLIENT_MAX_BAD_COMMANDS] at hlt ⊢; omega)] at hb
      have hRa : Ready (afterBad c p.1 p.2) := ⟨hR.1, hR.2.1, Or.inl rfl⟩
      have hih := ih (afterBad c p.1 p.2) hRa
        (fun q hq => hall q (List.mem_cons_of_mem _ hq))
        (by simp only [afterBad, List.length_cons] at hlt ⊢; omega)
      rw [List.map_cons, run_session_cons_live _ _ _ _ hR.1, hb]
      refine ⟨hih.1, hih.2.1, ?_, ?_⟩
      · rw [hih.2.2.1]
        simp only [afterBad, List.length_cons]
        omega
      · rw [List.map_cons, hih.2.2.2]
        rfl

/-- Running a batch of unknown tagged commands that exactly exhausts the
bad-command budget: the last line draws the BYE and destroys the
connection, all earlier ones draw the tagged BAD error. -/
theorem run_bads_kill (cfg : Config) :
    ∀ (pairs : List (String × String)) (c : ImapClient),
    Ready c → (∀ p ∈ pairs, p.1 ≠ "" ∧ knownCommand p.2 = false) →
    c.bad_counter + pairs.length = CLIENT_MAX_BAD_COMMANDS → pairs ≠ [] →
    (run_session cfg c (pairs.map fun p => mkLine p.1 p.2)).1.destroyed = true ∧
    (run_session cfg c (pairs.map fun p => mkLine p.1 p.2)).2
        = (pairs.dropLast.map
            (fun p => p.1 ++ " BAD Error in IMAP command received by server."))
          ++ ["* BYE Too many invalid IMAP commands."] := by
  intro pairs
  induction pairs with
  | nil => intro c _ _ _ hne; exact absurd rfl hne
  | cons p rest ih =>
      intro c hR hall hsum _
      obtain ⟨hp1, hp2⟩ := hall p (List.mem_cons_self ..)
      have hb := handle_bad cfg c (mkLine p.1 p.2) p.1 p.2 hR rfl rfl hp1 rfl hp2 rfl
      rcases rest with _ | ⟨q, rest2⟩
      · rw [if_pos (by simp only [List.length_cons, List.length_nil, CLIENT_MAX_BAD_COMMANDS] at hsum ⊢; omega)] at hb
        have hd := mark_destroyed (afterBad c p.1 p.2)
          (some "Disconnected: Too many invalid commands") hR.1
        rw [List.map_cons, List.map_nil, run_session_cons_live _ _ _ _ hR.1, hb]
        exact ⟨hd, by simp [run_session]⟩
      · rw [if_neg (by simp only [List.length_cons, CLIENT_MAX_BAD_COMMANDS] at hsum ⊢; omega)] at hb
        have hRa : Ready (afterBad c p.1 p.2) := ⟨hR.1, hR.2.1, Or.inl rfl⟩
        have hih := ih (afterBad c p.1 p.2) hRa
          (fun r hr => hall r (List.mem_cons_of_mem _ hr))
          (by simp only [afterBad, List.length_cons] at hsum ⊢; omega)
          (by simp)
        rw [List.map_cons, run_session_cons_live _ _ _ _ hR.1, hb]
        refine ⟨hih.1, ?_⟩
        rw [hih.2, List.dropLast_cons₂, List.map_cons]
        rfl

end ImapLogin

namespace ImapLogin

/-- Packaging of `handle_bad` over the `isBadInp` classifier. -/
theorem handle_bad_isBad (cfg : Config) (c : ImapClient) (inp : LineInput)
    (hR : Ready c) (hb : isBadInp inp = true) :
    client_handle_input cfg c inp =
      if CLIENT_MAX_BAD_COMMANDS ≤ c.bad_counter + 1 then
        ⟨client_destroy_mark (afterBad c (inp.tagWord.getD "") (inp.nameWord.getD ""))
           (some "Disconnected: Too many invalid commands"),
         ["* BYE Too many invalid IMAP commands."], false⟩
      else
        ⟨afterBad c (inp.tagWord.getD "") (inp.nameWord.getD ""),
         [inp.tagWord.getD "" ++ " BAD Error in IMAP command received by server."], true⟩ := by
  unfold isBadInp at hb
  rcases htw : inp.tagWord with _ | t <;> rw [htw] at hb
  · simp at hb
  rcases hnw : inp.nameWord with _ | n <;> rw [hnw] at hb
  · simp at hb
  rcases ha : inp.args <;> rw [ha] at hb <;>
    simp only [Bool.and_eq_true, Bool.not_eq_true', beq_eq_false_iff_ne,
      Bool.false_eq_true, and_false, false_and] at hb
  case some.some.ok =>
    obtain ⟨⟨⟨hs, ht⟩, -⟩, hn⟩ := hb
    rw [handle_bad cfg c inp t n hR hs htw ht hnw hn ha]
    simp [htw, hnw]

/-- A session-preserving valid line is not a bad line. -/
theorem good_not_bad (inp : LineInput) (hg : isGoodInp inp = true) :
    isBadInp inp = false := by
  unfold isGoodInp at hg
  unfold isBadInp
  rcases hnw : inp.nameWord with _ | n
  · simp [hnw] at hg
  · have hknown : knownCommand n = true := by
      simp only [hnw, Bool.and_eq_true, Bool.or_eq_true, beq_iff_eq] at hg
      rcases hg.2 with (hu | hu) | ⟨hu, -⟩ <;>
        simp [knownCommand, hu]
    simp [hknown]

/-- Session invariant for claim C10: while the connection survives, the
counter is the initial value plus the number of bad lines seen so far and
stays below the limit; once destroyed, the too-many-commands BYE is among
the outputs. -/
theorem session_invariant (cfg : Config) :
    ∀ (inps : List LineInput) (c : ImapClient),
    Ready c → c.bad_counter < CLIENT_MAX_BAD_COMMANDS →
    (∀ inp ∈ inps, isBadInp inp = true ∨ isGoodInp inp = true) →
    ((run_session cfg c inps).1.destroyed = false →
        (run_session cfg c inps).1.bad_counter
          = c.bad_counter + inps.countP (fun i => isBadInp i) ∧
        (run_session cfg c inps).1.bad_counter < CLIENT_MAX_BAD_COMMANDS) ∧
    ((run_session cfg c inps).1.destroyed = true →
        "* BYE Too many invalid IMAP commands." ∈ (run_session cfg c inps).2) := by
  intro inps
  induction inps with
  | nil =>
      intro c hR hc _
      constructor
      · intro _
        exact ⟨by simp [run_session], by simpa [run_session] using hc⟩
      · intro hd
        rw [show (run_session cfg c []).1 = c from rfl, hR.1] at hd
        exact absurd hd (by simp)
  | cons inp rest ih =>
      intro c hR hc hall
      have hd0 : c.destroyed = false := hR.1
      have hrest : ∀ i ∈ rest, isBadInp i = true ∨ isGoodInp i = true :=
        fun i hi => hall i (List.mem_cons_of_mem _ hi)
      rcases hall inp (List.mem_cons_self ..) with hbad | hgood
      · rw [run_session_cons_live _ _ _ _ hd0, handle_bad_isBad cfg c inp hR hbad]
        by_cases hten : CLIENT_MAX_BAD_COMMANDS ≤ c.bad_counter + 1
        · rw [if_pos hten]
          have hdm := mark_destroyed
            (afterBad c (inp.tagWord.getD "") (inp.nameWord.getD ""))
            (some "Disconnected: Too many invalid commands") hd0
          rw [run_session_destroyed _ _ _ hdm]
          constructor
          · intro hcontr
            rw [show ((client_destroy_mark
                (afterBad c (inp.tagWord.getD "") (inp.nameWord.getD ""))
                (some "Disconnected: Too many invalid commands"), ([] : List String)).1)
              = client_destroy_mark
                (afterBad c (inp.tagWord.getD "") (inp.nameWord.getD ""))
                (some "Disconnected: Too many invalid commands") from rfl, hdm] at hcontr
            exact absurd hcontr (by simp)
          · intro _
            simp
        · rw [if_neg hten]
          have hRa : Ready (afterBad c (inp.tagWord.getD "") (inp.nameWord.getD "")) :=
            ⟨hd0, hR.2.1, Or.inl rfl⟩
          have hca : (afterBad c (inp.tagWord.getD "") (inp.nameWord.getD "")).bad_counter
              < CLIENT_MAX_BAD_COMMANDS := by
            simp only [afterBad]
            omega
          have hih := ih _ hRa hca hrest
          constructor
          · intro hds
            obtain ⟨he, hl⟩ := hih.1 hds
            refine ⟨?_, hl⟩
            rw [he, List.countP_cons_of_pos _ _ (by simpa using hbad)]
            simp only [afterBad]
            omega
          · intro hds
            exact List.mem_append_right _ (hih.2 hds)
      · have hg := handle_good cfg c inp hR hgood
        rw [run_session_cons_live _ _ _ _ hd0]
        have hih := ih (client_handle_input cfg c inp).c hg.2.2 (by rw [hg.1]; exact hc) hrest
        constructor
        · intro hds
          obtain ⟨he, hl⟩ := hih.1 hds
          refine ⟨?_, hl⟩
          rw [he, hg.1, List.countP_cons_of_neg _ _ (by simp [good_not_bad inp hgood])]
        · intro hds
          exact List.mem_append_right _ (hih.2 hds)

end ImapLogin

namespace ImapLogin

/-- C1 counterexample: starting from a fresh connection, ten unknown
tagged command lines do NOT leave the connection open with ten tagged BAD
replies; the tenth line already draws `* BYE Too many invalid IMAP
commands.` and destroys the connection (the counter is pre-incremented
before the `>= CLIENT_MAX_BAD_COMMANDS` test in client.c line 288). -/
theorem bad_commands_tenth_counterexample :
    (run_session sampleCfg sampleClient (List.replicate 10 (mkLine "a" "FROB"))).1.destroyed
        = true ∧
    (run_session sampleCfg sampleClient (List.replicate 10 (mkLine "a" "FROB"))).2 =
      (List.replicate 9 "a BAD Error in IMAP command received by server.")
        ++ ["* BYE Too many invalid IMAP commands."] := by
  constructor <;> rfl

/-- C1 amended: for a connection whose bad-command counter starts at
zero, each of the first nine unknown tagged command lines is answered
with `<tag> BAD Error in IMAP command received by server.` and the
connection stays open; the tenth such line instead produces `* BYE Too
many invalid IMAP commands.` and the connection is destroyed. -/
theorem bad_commands_budget :
    ∀ (cfg : Config) (c : ImapClient) (pairs : List (String × String)),
    Ready c → c.bad_counter = 0 →
    (∀ p ∈ pairs, p.1 ≠ "" ∧ knownCommand p.2 = false) →
    pairs.length = CLIENT_MAX_BAD_COMMANDS →
    ((run_session cfg c ((pairs.take 9).map fun p => mkLine p.1 p.2)).1.destroyed = false ∧
     (run_session cfg c ((pairs.take 9).map fun p => mkLine p.1 p.2)).2 =
       (pairs.take 9).map
         (fun p => p.1 ++ " BAD Error in IMAP command received by server.")) ∧
    (run_session cfg c (pairs.map fun p => mkLine p.1 p.2)).1.destroyed = true ∧
    (run_session cfg c (pairs.map fun p => mkLine p.1 p.2)).2 =
      (pairs.dropLast.map
        (fun p => p.1 ++ " BAD Error in IMAP command received by server."))
        ++ ["* BYE Too many invalid IMAP commands."] := by
  intro cfg c pairs hR h0 hall hlen
  have h1 := run_bads_alive cfg (pairs.take 9) c hR
    (fun p hp => hall p (List.take_subset _ _ hp))
    (by simp [h0, List.length_take, hlen, CLIENT_MAX_BAD_COMMANDS])
  have h2 := run_bads_kill cfg pairs c hR hall (by rw [h0, hlen]; simp)
    (by intro hnil; rw [hnil] at hlen; simp [CLIENT_MAX_BAD_COMMANDS] at hlen)
  exact ⟨⟨h1.1, h1.2.2.2⟩, h2⟩

/-- Witness for the amended C1 at a concrete ten-line session. -/
theorem bad_commands_budget_witness :
    (run_session sampleCfg sampleClient
      ((List.replicate 10 ("a", "FROB")).map fun p => mkLine p.1 p.2)).1.destroyed = true ∧
    (run_session sampleCfg sampleClient
      (((List.replicate 10 ("a", "FROB")).take 9).map fun p =>
        mkLine p.1 p.2)).1.destroyed = false := by
  have h := bad_commands_budget sampleCfg sampleClient (List.replicate 10 ("a", "FROB"))
    ⟨rfl, rfl, Or.inr ⟨rfl, rfl⟩⟩ rfl (by decide) (by decide)
  exact ⟨h.2.1, h.1.1⟩

/-- C4 counterexample: a recoverable argument-parse error sends the
tagged BAD, arms `skip_line` and `cmd_finished` and keeps the connection
open, but does NOT increment `bad_counter` (it stays 0 instead of
becoming 1): the branch at client.c lines 269-272 returns before the
counter code. -/
theorem recoverable_error_counter_counterexample :
    (client_handle_input sampleCfg sampleClient
      { tagWord := some "a", nameWord := some "LOGIN",
        args := .recoverable "Invalid argument" }).c.bad_counter = 0 ∧
    sampleClient.bad_counter = 0 ∧
    (client_handle_input sampleCfg sampleClient
      { tagWord := some "a", nameWord := some "LOGIN",
        args := .recoverable "Invalid argument" }).out = ["a BAD Invalid argument"] ∧
    (client_handle_input sampleCfg sampleClient
      { tagWord := some "a", nameWord := some "LOGIN",
        args := .recoverable "Invalid argument" }).c.destroyed = false := by
  refine ⟨rfl, rfl, rfl, rfl⟩

/-- C4 amended: on a recoverable argument-parse error the connection
sends `<tag> BAD <msg>`, sets `skip_line` and `cmd_finished`, leaves
`bad_counter` unchanged (the line does not count toward the bad-command
budget), and remains open and able to process further commands. -/
theorem recoverable_parse_error :
    ∀ (cfg : Config) (c : ImapClient) (inp : LineInput) (t n msg : String),
    Ready c → inp.skipFound = true → inp.tagWord = some t → inp.nameWord = some n →
    inp.args = .recoverable msg →
    client_handle_input cfg c inp =
      ⟨{ c with cmd_tag := some t, cmd_name := some n,
                cmd_finished := true, skip_line := true },
       [t ++ " BAD " ++ msg], true⟩ := by
  intro cfg c inp t n msg hR hs htw hnw ha
  obtain ⟨hdes, hauth, hready⟩ := hR
  by_cases hcf : c.cmd_finished = true
  · simp [client_handle_input, readTagStage, readNameStage, readArgsStage, tagOf,
      hs, htw, hnw, ha, hcf, hauth]
  · obtain ⟨htag0, hname0⟩ := hready.resolve_left hcf
    simp [client_handle_input, readTagStage, readNameStage, readArgsStage, tagOf,
      hs, htw, hnw, ha, (Bool.not_eq_true _).mp hcf, htag0, hname0, hauth]

/-- Witness for the amended C4 at a concrete input. -/
theorem recoverable_parse_error_witness :
    client_handle_input sampleCfg sampleClient
      { tagWord := some "a", nameWord := some "LOGIN",
        args := .recoverable "Invalid argument" } =
      ⟨{ sampleClient with cmd_tag := some "a", cmd_name := some "LOGIN", cmd_finished := true, skip_line := true },
       ["a BAD Invalid argument"], true⟩ :=
  recoverable_parse_error sampleCfg sampleClient
    { tagWord := some "a", nameWord := some "LOGIN",
      args := .recoverable "Invalid argument" } "a" "LOGIN" "Invalid argument"
    ⟨rfl, rfl, Or.inr ⟨rfl, rfl⟩⟩ rfl rfl rfl rfl

/-- C10: the bad-command counter is cumulative over the whole session:
no `client_handle_input` turn ever decreases it, a session-preserving
valid command (CAPABILITY, NOOP, deferred STARTTLS) leaves it unchanged,
and any ten bad lines over the lifetime of a connection trigger the
`* BYE Too many invalid IMAP commands.` disconnect even with arbitrarily
many valid commands interleaved. -/
theorem bad_counter_cumulative :
    (∀ (cfg : Config) (c : ImapClient) (inp : LineInput),
        c.bad_counter ≤ (client_handle_input cfg c inp).c.bad_counter) ∧
    (∀ (cfg : Config) (c : ImapClient) (inp : LineInput),
        Ready c → isGoodInp inp = true →
        (client_handle_input cfg c inp).c.bad_counter = c.bad_counter ∧
        (client_handle_input cfg c inp).c.destroyed = false) ∧
    (∀ (cfg : Config) (c : ImapClient) (inps : List LineInput),
        Ready c → c.bad_counter = 0 →
        (∀ inp ∈ inps, isBadInp inp = true ∨ isGoodInp inp = true) →
        CLIENT_MAX_BAD_COMMANDS ≤ inps.countP (fun i => isBadInp i) →
        (run_session cfg c inps).1.destroyed = true ∧
        "* BYE Too many invalid IMAP commands." ∈ (run_session cfg c inps).2) := by
  refine ⟨handle_counter,
    fun cfg c inp hR hg =>
      ⟨(handle_good cfg c inp hR hg).1, (handle_good cfg c inp hR hg).2.1⟩,
    fun cfg c inps hR h0 hall hcount => ?_⟩
  have hinv := session_invariant cfg inps c hR
    (by rw [h0]; simp [CLIENT_MAX_BAD_COMMANDS]) hall
  by_cases hds : (run_session cfg c inps).1.destroyed = true
  · exact ⟨hds, hinv.2 hds⟩
  · exfalso
    have h1 := hinv.1 (by simpa using hds)
    rw [h0] at h1
    simp only [CLIENT_MAX_BAD_COMMANDS] at h1 hcount
    omega

/-- Witness for C10: ten bad lines interleaved with ten NOOPs trigger the
disconnect. -/
theorem bad_counter_cumulative_witness :
    (run_session sampleCfg sampleClient
      ((List.replicate 10 [mkLine "z" "NOOP", mkLine "a" "FROB"]).flatten)).1.destroyed
        = true ∧
    "* BYE Too many invalid IMAP commands." ∈
      (run_session sampleCfg sampleClient
        ((List.replicate 10 [mkLine "z" "NOOP", mkLine "a" "FROB"]).flatten)).2 :=
  bad_counter_cumulative.2.2 sampleCfg sampleClient
    ((List.replicate 10 [mkLine "z" "NOOP", mkLine "a" "FROB"]).flatten)
    ⟨rfl, rfl, Or.inr ⟨rfl, rfl⟩⟩ rfl (by decide) (by decide)

end ImapLogin

namespace ImapLogin

/-- The `destroy_buf` insertion places the client and keeps everything
else: the result is a permutation of consing. -/
theorem insertOldest_perm (c : ImapClient) :
    ∀ l : List ImapClient, List.Perm (insertOldest c l) (c :: l) := by
  intro l
  induction l with
  | nil => exact List.Perm.refl _
  | cons b bs ih =>
      unfold insertOldest
      split
      · exact List.Perm.refl _
      · exact (ih.cons b).trans (List.Perm.swap c b bs)

/-- Membership in the insertion buffer. -/
theorem mem_insertOldest {x c : ImapClient} {l : List ImapClient} :
    x ∈ insertOldest c l ↔ x = c ∨ x ∈ l := by
  rw [(insertOldest_perm c l).mem_iff]
  simp

/-- Length of the insertion buffer. -/
theorem insertOldest_length (c : ImapClient) (l : List ImapClient) :
    (insertOldest c l).length = l.length + 1 := by
  simpa using (insertOldest_perm c l).length_eq

/-- The insertion keeps the buffer sorted by creation time. -/
theorem insertOldest_sorted (c : ImapClient) :
    ∀ l : List ImapClient,
    l.Pairwise (fun a b => a.created ≤ b.created) →
    (insertOldest c l).Pairwise (fun a b => a.created ≤ b.created) := by
  intro l
  induction l with
  | nil => intro _; exact List.pairwise_singleton _ _
  | cons b bs ih =>
      intro h
      rw [List.pairwise_cons] at h
      unfold insertOldest
      split
      · next hlt =>
          rw [List.pairwise_cons]
          refine ⟨?_, List.pairwise_cons.mpr h⟩
          intro x hx
          rcases List.mem_cons.mp hx with rfl | hx
          · exact le_of_lt hlt
          · exact le_trans (le_of_lt hlt) (h.1 x hx)
      · next hge =>
          rw [List.pairwise_cons]
          refine ⟨?_, ih h.2⟩
          intro x hx
          rcases mem_insertOldest.mp hx with rfl | hx
          · exact le_of_not_lt hge
          · exact h.1 x hx
/-- When the client is newer than everything in the buffer it is appended
at the end. -/
theorem insertOldest_append (c : ImapClient) :
    ∀ l : List ImapClient, (∀ b ∈ l, ¬ c.created < b.created) →
    insertOldest c l = l ++ [c] := by
  intro l
  induction l with
  | nil => intro _; rfl
  | cons b bs ih =>
      intro h
      unfold insertOldest
      rw [if_neg (h b (List.mem_cons_self ..)), ih (fun x hx => h x (List.mem_cons_of_mem _ hx))]
      rfl

/-- In a list sorted by creation time, every element kept by `take` is at
most every element discarded by `drop`. -/
theorem sorted_take_le_drop (l : List ImapClient) (n : Nat)
    (h : l.Pairwise (fun a b => a.created ≤ b.created)) :
    ∀ x ∈ l.take n, ∀ y ∈ l.drop n, x.created ≤ y.created := by
  have hsplit := List.take_append_drop n l
  rw [← hsplit] at h
  exact fun x hx y hy => (List.pairwise_append.mp h).2.2 x hx y hy

end ImapLogin

namespace ImapLogin

/-- Invariant of the `client_destroy_oldest` scan: after processing any
part of the registry, the buffer is sorted by creation time, holds
`min processed 16` entries, is drawn from the processed clients, and
every processed client outside the buffer was created no earlier than
every buffer entry. -/
theorem buildBuf_fold_inv :
    ∀ (l processed buf : List ImapClient),
    (processed ++ l).Nodup →
    buf.Pairwise (fun a b => a.created ≤ b.created) →
    buf.length = min processed.length CLIENT_DESTROY_OLDEST_COUNT →
    List.Subperm buf processed →
    (∀ y ∈ processed, y ∉ buf → ∀ x ∈ buf, x.created ≤ y.created) →
    ((l.foldl bufStep buf).Pairwise (fun a b => a.created ≤ b.created) ∧
     (l.foldl bufStep buf).length
        = min (processed ++ l).length CLIENT_DESTROY_OLDEST_COUNT ∧
     List.Subperm (l.foldl bufStep buf) (processed ++ l) ∧
     (∀ y ∈ processed ++ l, y ∉ l.foldl bufStep buf →
        ∀ x ∈ l.foldl bufStep buf, x.created ≤ y.created)) := by
  intro l
  induction l with
  | nil =>
      intro processed buf hnd hsort hlen hsub hmin
      simpa using ⟨hsort, hlen, hsub, hmin⟩
  | cons c l ih =>
      intro processed buf hnd hsort hlen hsub hmin
      have hnd2 : ((processed ++ [c]) ++ l).Nodup := by
        simpa [List.append_assoc] using hnd
      have hcnotp : c ∉ processed := by
        have := (List.nodup_append.mp hnd).2.2
        intro hc
        exact this hc (List.mem_cons_self ..)
      have hcnotbuf : c ∉ buf := fun hc => hcnotp (hsub.subset hc)
      have hsort2 : (bufStep buf c).Pairwise (fun a b => a.created ≤ b.created) :=
        (insertOldest_sorted c buf hsort).sublist (List.take_sublist _ _)
      have hlen2 : (bufStep buf c).length
          = min (processed ++ [c]).length CLIENT_DESTROY_OLDEST_COUNT := by
        simp only [bufStep, List.length_take, insertOldest_length, List.length_append,
          List.length_cons, List.length_nil, CLIENT_DESTROY_OLDEST_COUNT] at hlen ⊢
        omega
      have hsub2 : List.Subperm (bufStep buf c) (processed ++ [c]) := by
        refine List.Subperm.trans ?_ (List.Perm.subperm (List.perm_append_singleton c processed).symm)
        refine List.Subperm.trans ((List.take_sublist _ _).subperm) ?_
        exact List.Subperm.trans (insertOldest_perm c buf).subperm
          ((List.subperm_cons c).mpr hsub)
      have hmin2 : ∀ y ∈ processed ++ [c], y ∉ bufStep buf c →
          ∀ x ∈ bufStep buf c, x.created ≤ y.created := by
        intro y hy hynot x hx
        have hxin : x ∈ insertOldest c buf :=
          (List.take_sublist _ _).subset hx
        by_cases hyin : y ∈ insertOldest c buf
        · have hydrop : y ∈ (insertOldest c buf).drop CLIENT_DESTROY_OLDEST_COUNT := by
            have := (List.take_append_drop CLIENT_DESTROY_OLDEST_COUNT
              (insertOldest c buf)) ▸ hyin
            rcases List.mem_append.mp this with hyt | hyd
            · exact absurd hyt hynot
            · exact hyd
          exact sorted_take_le_drop _ _ (insertOldest_sorted c buf hsort) x hx y hydrop
        · have hynotbuf : y ∉ buf := fun hc =>
            hyin (mem_insertOldest.mpr (Or.inr hc))
          have hyne : y ≠ c := fun hc => hyin (mem_insertOldest.mpr (Or.inl hc))
          have hyp : y ∈ processed := by
            rcases List.mem_append.mp hy with hyp | hyc
            · exact hyp
            · exact absurd (List.mem_singleton.mp hyc) hyne
          rcases mem_insertOldest.mp hxin with rfl | hxbuf
          · by_cases hc : ∀ b ∈ buf, ¬ x.created < b.created
            · exfalso
              have happ := insertOldest_append x buf hc
              by_cases hlt16 : buf.length < CLIENT_DESTROY_OLDEST_COUNT
              · have hplen : processed.length ≤ buf.length := by
                  simp only [CLIENT_DESTROY_OLDEST_COUNT] at hlen hlt16
                  omega
                have hperm := hsub.perm_of_length_le hplen
                exact hynotbuf (hperm.symm.subset hyp)
              · have hb16 : buf.length = CLIENT_DESTROY_OLDEST_COUNT := by
                  simp only [CLIENT_DESTROY_OLDEST_COUNT] at hlen hlt16 ⊢
                  omega
                have : bufStep buf x = buf := by
                  rw [bufStep, happ, ← hb16, List.take_left]
                rw [this] at hx
                exact hcnotbuf hx
            · push_neg at hc
              obtain ⟨b, hbmem, hblt⟩ := hc
              exact le_trans (le_of_lt hblt) (hmin y hyp hynotbuf b hbmem)
          · exact hmin y hyp hynotbuf x hxbuf
      have := ih (processed ++ [c]) (bufStep buf c) hnd2 hsort2 hlen2 hsub2 hmin2
      simpa [List.append_assoc] using this

end ImapLogin

namespace ImapLogin

/-- The `destroy_buf` computed over the registry: sixteen entries (or the
whole registry when smaller), drawn from the registry, and minimal in
creation time among all registered clients. -/
theorem buildBuf_facts (reg : List ImapClient) (hnd : reg.Nodup) :
    (buildBuf reg).length = min reg.length CLIENT_DESTROY_OLDEST_COUNT ∧
    List.Subperm (buildBuf reg) reg ∧
    (∀ y ∈ reg, y ∉ buildBuf reg → ∀ x ∈ buildBuf reg, x.created ≤ y.created) := by
  have h := buildBuf_fold_inv reg [] [] (by simpa using hnd) (by simp) (by simp)
    List.nil_subperm (by simp)
  simp only [List.nil_append] at h
  exact ⟨h.2.1, h.2.2.1, h.2.2.2⟩

/-- Removing the elements of a sub-collection from a duplicate-free list
removes exactly that many entries. -/
theorem diff_subperm_length :
    ∀ (buf reg : List ImapClient), reg.Nodup → List.Subperm buf reg →
    (reg.diff buf).length = reg.length - buf.length := by
  intro buf
  induction buf with
  | nil => intro reg _ _; simp
  | cons b bs ih =>
      intro reg hnd hsub
      have hbmem : b ∈ reg := hsub.subset (List.mem_cons_self ..)
      have hbs : List.Subperm bs (reg.erase b) := by
        have h2 := hsub.erase b
        rwa [List.erase_cons_head] at h2
      rw [List.diff_cons, ih (reg.erase b) (hnd.erase b) hbs,
        List.length_erase_of_mem hbmem]
      simp only [List.length_cons]
      omega

/-- C5 amended: when `max_logging_users` exceeds
`CLIENT_DESTROY_OLDEST_COUNT`, accepting a connection keeps the registry
within the limit, and a full registry is handled by destroying the
sixteen connections with the smallest creation timestamps (with reason
`Disconnected: Connection queue full`) before the new connection is
inserted. -/
theorem connection_queue_eviction :
    ∀ (cfg : Config) (now : Int) (idn : Nat) (fd : Int) (ssl : Bool)
      (lip ip : IpAddr) (w : CreateWorld),
    (w.reg.map ImapClient.id).Nodup →
    CLIENT_DESTROY_OLDEST_COUNT < cfg.max_logging_users →
    ((w.reg.length ≤ cfg.max_logging_users →
      (client_create_world cfg now idn fd ssl lip ip w).1.reg.length
        ≤ cfg.max_logging_users) ∧
     (cfg.max_logging_users ≤ w.reg.length →
      (buildBuf w.reg).length = CLIENT_DESTROY_OLDEST_COUNT ∧
      (client_create_world cfg now idn fd ssl lip ip w).1.reg =
        client_create now idn fd ssl lip ip :: w.reg.diff (buildBuf w.reg) ∧
      (client_create_world cfg now idn fd ssl lip ip w).1.gone =
        w.gone ++ (buildBuf w.reg).map
          (fun b => client_destroy_mark b (some "Disconnected: Connection queue full")) ∧
      (∀ b ∈ buildBuf w.reg, b.destroyed = false →
        (client_destroy_mark b (some "Disconnected: Connection queue full")).log
          = b.log ++ ["Disconnected: Connection queue full"]) ∧
      (∀ x ∈ buildBuf w.reg, ∀ y ∈ w.reg.diff (buildBuf w.reg),
        x.created ≤ y.created) ∧
      (client_create_world cfg now idn fd ssl lip ip w).1.reg.length
        = w.reg.length - CLIENT_DESTROY_OLDEST_COUNT + 1)) := by
  intro cfg now idn fd ssl lip ip w hndid hmax
  have hnd : w.reg.Nodup := List.Nodup.of_map ImapClient.id hndid
  obtain ⟨hblen, hbsub, hbmin⟩ := buildBuf_facts w.reg hnd
  constructor
  · intro hle
    by_cases hfull : cfg.max_logging_users ≤ w.reg.length
    · have hcond : CLIENT_DESTROY_OLDEST_COUNT < cfg.max_logging_users ∧
          cfg.max_logging_users ≤ w.reg.length := ⟨hmax, hfull⟩
      simp only [client_create_world, client_destroy_oldest, if_pos hcond,
        List.length_cons]
      rw [diff_subperm_length _ _ hnd hbsub, hblen]
      simp only [CLIENT_DESTROY_OLDEST_COUNT] at hmax hfull ⊢
      omega
    · have hcond : ¬ (CLIENT_DESTROY_OLDEST_COUNT < cfg.max_logging_users ∧
          cfg.max_logging_users ≤ w.reg.length) := fun hc => hfull hc.2
      simp only [client_create_world, if_neg hcond, List.length_cons]
      omega
  · intro hfull
    have hcond : CLIENT_DESTROY_OLDEST_COUNT < cfg.max_logging_users ∧
        cfg.max_logging_users ≤ w.reg.length := ⟨hmax, hfull⟩
    have h16 : (buildBuf w.reg).length = CLIENT_DESTROY_OLDEST_COUNT := by
      rw [hblen]
      simp only [CLIENT_DESTROY_OLDEST_COUNT] at hmax hfull ⊢
      omega
    refine ⟨h16, ?_, ?_, ?_, ?_, ?_⟩
    · simp [client_create_world, client_destroy_oldest, hcond]
    · simp [client_create_world, client_destroy_oldest, hcond]
    · intro b hb hbd
      unfold client_destroy_mark client_unref
      rw [if_neg (by simp [hbd])]
      split <;> simp
    · intro x hx y hy
      have hymem := (List.Nodup.mem_diff_iff hnd).mp hy
      exact hbmin y hymem.1 hymem.2 x hx
    · simp only [client_create_world, client_destroy_oldest, if_pos hcond,
        List.length_cons]
      rw [diff_subperm_length _ _ hnd hbsub, h16]

/-- C5 counterexample: with `max_logging_users = 1` (not exceeding
`CLIENT_DESTROY_OLDEST_COUNT = 16`) and a registry already holding one
connection, `client_create` destroys nothing and the registry grows to 2,
exceeding the limit: the eviction is guarded by
`max_logging_users > CLIENT_DESTROY_OLDEST_COUNT` at client.c line 391,
which the claim omits. -/
theorem capacity_exceeded_counterexample :
    (client_create_world { sampleCfg with max_logging_users := 1 } 0 2 5 false
        (.v4 1 1 1 1) (.v4 2 2 2 2)
        ⟨[{ id := 1, refcount := 1 }], []⟩).1.reg.length = 2 ∧
    ({ sampleCfg with max_logging_users := 1 } : Config).max_logging_users = 1 ∧
    (client_create_world { sampleCfg with max_logging_users := 1 } 0 2 5 false
        (.v4 1 1 1 1) (.v4 2 2 2 2)
        ⟨[{ id := 1, refcount := 1 }], []⟩).1.gone = [] := by
  refine ⟨rfl, rfl, rfl⟩

/-- Witness for the amended C5 at a concrete seventeen-client registry. -/
theorem connection_queue_eviction_witness :
    (buildBuf ((List.range 17).map fun i =>
      ({ id := i, refcount := 1, created := (i : Int) } : ImapClient))).length
        = CLIENT_DESTROY_OLDEST_COUNT ∧
    (client_create_world { sampleCfg with max_logging_users := 17 } 99 99 5 false
        (.v4 1 1 1 1) (.v4 2 2 2 2)
        ⟨(List.range 17).map fun i =>
          ({ id := i, refcount := 1, created := (i : Int) } : ImapClient), []⟩).1.reg.length
      = 17 - CLIENT_DESTROY_OLDEST_COUNT + 1 := by
  have h := connection_queue_eviction { sampleCfg with max_logging_users := 17 }
    99 99 5 false (.v4 1 1 1 1) (.v4 2 2 2 2)
    ⟨(List.range 17).map fun i =>
      ({ id := i, refcount := 1, created := (i : Int) } : ImapClient), []⟩
    (by decide) (by decide)
  exact ⟨(h.2 (by decide)).1, (h.2 (by decide)).2.2.2.2.2⟩

end ImapLogin
